import Mathlib

/-!
Shallow embedding of a concurrent matrix-multiplication library
(src/src/matrix.rs together with the vector component it uses).
Element types are generic, as in the source; concrete instances use
unbounded `Int`.  `Option` models panics (`none` = the computation
panics) and `Except` models the `Result` type of fallible calls.
The message-passing engine is embedded by its observable data flow:
each output cell gets exactly one task, each task exactly one reply
channel, and the assembler reads the replies in dispatch order, so a
reply is fully described by its destination index together with
either the computed value or the fact that the channel was dropped.
-/

instance {ε α : Type} [DecidableEq ε] [DecidableEq α] : DecidableEq (Except ε α) :=
  fun x y =>
    match x, y with
    | Except.ok a, Except.ok b =>
      if h : a = b then isTrue (congrArg Except.ok h)
      else isFalse (fun hh => h (Except.ok.inj hh))
    | Except.error a, Except.error b =>
      if h : a = b then isTrue (congrArg Except.error h)
      else isFalse (fun hh => h (Except.error.inj hh))
    | Except.ok _, Except.error _ => isFalse (fun hh => Except.noConfusion hh)
    | Except.error _, Except.ok _ => isFalse (fun hh => Except.noConfusion hh)

namespace Concurrency

/-- Worker-pool size, matrix.rs line 9. -/
def NUM_THREADS : Nat := 4

/-- Modelled from the spec: the file src/vector.rs is not under src/.
Section 3 of the spec describes Vector of T as owning an ordered
sequence of T, with no identity beyond its contents and length. -/
structure Vector (T : Type) where
  data : List T
deriving DecidableEq

/-- Modelled from the spec: Vector.new(elements) builds a vector from a sequence. -/
def Vector.new {T : Type} (data : List T) : Vector T := ⟨data⟩

/-- The matrix type, matrix.rs lines 21-25: row-major flat buffer plus dimensions. -/
structure Matrix (T : Type) where
  data : List T
  row : Nat
  col : Nat
deriving DecidableEq

/-- Matrix.new, matrix.rs lines 37-43: stores the given buffer and dimensions
unchanged, with no validation of any kind. -/
def Matrix.new {T : Type} (data : List T) (row col : Nat) : Matrix T :=
  { data := data, row := row, col := col }

/-- Classification of the anyhow errors that the library can return. -/
inductive MultiplyError where
  | DimensionMismatch
  | ChannelRecvFailure
deriving DecidableEq

/-- Modelled from the spec: the file src/vector.rs is not under src/.
Section 4.1 of the spec: dot_product(u, v) requires len(u) == len(v) and
fails with a DimensionMismatch error otherwise; on success it returns the
sum of the elementwise products, accumulated sequentially in encounter
order starting from the default (zero-like) value. -/
def dot_product {T : Type} [Inhabited T] [Add T] [Mul T] (u v : Vector T) :
    Except MultiplyError T :=
  if u.data.length ≠ v.data.length then Except.error MultiplyError.DimensionMismatch
  else Except.ok ((List.zipWith (fun x y => x * y) u.data v.data).foldl
    (fun s x => s + x) default)

/-- One worker thread's receive loop (matrix.rs lines 128-141) applied to the
queue of messages sent to that worker, in order.  Entry k of the result is the
reply for message k: `some v` if the worker sent MsgOutput with value v, and
`none` if the reply channel was dropped without a value.  When dot_product
fails, the `?` operator exits the loop with the error, so the failing message
and every message still queued behind it get no reply. -/
def workerRun {T : Type} [Inhabited T] [Add T] [Mul T] :
    List (Vector T × Vector T) → List (Option T)
  | [] => []
  | (r, c) :: rest =>
    match dot_product r c with
    | Except.ok v => some v :: workerRun rest
    | Except.error _ => none :: rest.map (fun _ => none)

/-- The row view taken at matrix.rs line 154, a.data[i * a.col..(i + 1) * a.col];
`none` models the slice-out-of-range panic. -/
def rowOf {T : Type} (a : Matrix T) (i : Nat) : Option (List T) :=
  if (i + 1) * a.col ≤ a.data.length then
    some ((a.data.drop (i * a.col)).take a.col)
  else none

/-- iter().step_by(s) on the suffix list: keep every s-th element starting with
the first.  The counter argument is the number of elements still to be skipped
before the next kept one. -/
def stepByAux {T : Type} : List T → Nat → Nat → List T
  | [], _, _ => []
  | x :: xs, s, 0 => x :: stepByAux xs s (s - 1)
  | _ :: xs, s, c + 1 => stepByAux xs s c

/-- Every s-th element of l, starting with the first. -/
def stepBy {T : Type} (l : List T) (s : Nat) : List T := stepByAux l s 0

/-- The materialized column b.data[j..].iter().step_by(b.col).copied().collect()
of matrix.rs lines 155-160; `none` models the panic of the slice b.data[j..]
when j exceeds the buffer length and the panic of step_by with step 0. -/
def colOf {T : Type} (b : Matrix T) (j : Nat) : Option (List T) :=
  if j ≤ b.data.length ∧ 0 < b.col then some (stepBy (b.data.drop j) b.col)
  else none

/-- Building the task of output cell (i, j) and running its dot product on the
assigned worker.  Outer `none`: the dispatch loop panics while slicing row or
column; inner `none`: the dot product failed, so the worker exits and the reply
channel for this task is dropped without a value. -/
def cellReply {T : Type} [Inhabited T] [Add T] [Mul T] (a b : Matrix T) (i j : Nat) :
    Option (Option T) := do
  let row ← rowOf a i
  let col ← colOf b j
  pure (dot_product (Vector.new row) (Vector.new col)).toOption

/-- The reply of the task with destination index k (row k / b.col, column k % b.col). -/
def cellReplyAt {T : Type} [Inhabited T] [Add T] [Mul T] (a b : Matrix T) (k : Nat) :
    Option (Option T) :=
  cellReply a b (k / b.col) (k % b.col)

/-- True when the task was built without panic but its reply channel was dropped. -/
def isDroppedReply {T : Type} : Option (Option T) → Bool
  | some none => true
  | _ => false

/-- Whether the worker assigned to task idx has already exited its receive loop
by the time it would process that task: some earlier task on the same worker
(same destination index modulo NUM_THREADS) made its dot_product fail, and the
`?` in the worker closure ends the loop. -/
def deadBefore {T : Type} [Inhabited T] [Add T] [Mul T] (a b : Matrix T) (idx : Nat) :
    Bool :=
  (List.range idx).any (fun k =>
    k % NUM_THREADS == idx % NUM_THREADS && isDroppedReply (cellReplyAt a b k))

/-- The output cells (i, j) of an m by q grid in row-major dispatch order,
matching the two nested dispatch loops of matrix.rs lines 151-152. -/
def pairGrid (m q : Nat) : List (Nat × Nat) :=
  (List.range m).flatMap (fun i => (List.range q).map (fun j => (i, j)))

/-- The cells dispatched by multiply(a, b). -/
def cellPairs {T : Type} (a b : Matrix T) : List (Nat × Nat) :=
  pairGrid a.row b.col

/-- The dispatch loop of matrix.rs lines 151-175 combined with the workers:
for each cell, build its task (`none` = panic while slicing) and record the
pair (destination index, reply).  The reply is dropped (`none`) when the send
to the worker channel failed (s idx = false), when the worker had already died
(deadBefore), or when the dot product of the task itself failed; a send failure
is only logged and dispatch continues with the next cell. -/
def dispatchAll {T : Type} [Inhabited T] [Add T] [Mul T] (s : Nat → Bool)
    (a b : Matrix T) : List (Nat × Nat) → Option (List (Nat × Option T))
  | [] => some []
  | ij :: rest => do
    let r ← cellReply a b ij.1 ij.2
    let others ← dispatchAll s a b rest
    let idx := ij.1 * b.col + ij.2
    pure ((idx, if s idx && !deadBefore a b idx then r else none) :: others)

/-- The Result Assembler, matrix.rs lines 177-181: receive the replies in
dispatch order and write each value at its destination index; the first reply
channel found closed without a value fails the whole call.  Every destination
index is below the buffer length by construction, so List.set matches the Rust
index assignment there. -/
def collectResults {T : Type} :
    List T → List (Nat × Option T) → Except MultiplyError (List T)
  | data, [] => Except.ok data
  | data, (idx, some v) :: rest => collectResults (data.set idx v) rest
  | _, (_, none) :: _ => Except.error MultiplyError.ChannelRecvFailure

/-- multiply (matrix.rs lines 115-189) under an explicit schedule s telling
which task sends succeed (schedule-dependent behaviour of the channels); the
actual runs of the program are the admissible schedules, see validSchedule. -/
def multiplyWith {T : Type} [Inhabited T] [Add T] [Mul T] (s : Nat → Bool)
    (a b : Matrix T) : Option (Except MultiplyError (Matrix T)) :=
  if a.col ≠ b.row then some (Except.error MultiplyError.DimensionMismatch)
  else
    (dispatchAll s a b (cellPairs a b)).map (fun replies =>
      (collectResults (List.replicate (a.row * b.col) default) replies).map
        (fun data => { data := data, row := a.row, col := b.col }))

/-- multiply under the schedule in which every send succeeds. -/
def multiply {T : Type} [Inhabited T] [Add T] [Mul T] (a b : Matrix T) :
    Option (Except MultiplyError (Matrix T)) :=
  multiplyWith (fun _ => true) a b

/-- A send to a worker channel can fail only when that worker has already
exited its receive loop, so admissible schedules may mark the send of task idx
as failing only when the worker assigned to idx died on an earlier task. -/
def validSchedule {T : Type} [Inhabited T] [Add T] [Mul T] (a b : Matrix T)
    (s : Nat → Bool) : Prop :=
  ∀ idx, idx < a.row * b.col → s idx = false → deadBefore a b idx = true

/-- Thread and channel events of one multiply call. -/
structure MulTrace where
  workersSpawned : Nat
  sends : List (Nat × Nat)
deriving DecidableEq

/-- The trace of a multiply call: on a dimension mismatch the call returns
before spawning anything (matrix.rs lines 119-122); otherwise exactly
NUM_THREADS workers are spawned (lines 125-143) and each task built without a
panic is sent to worker idx % NUM_THREADS (line 169), in dispatch order; a
panic while slicing a task stops the dispatch loop. -/
def multiplyTrace {T : Type} [Inhabited T] [Add T] [Mul T] (a b : Matrix T) :
    MulTrace :=
  if a.col ≠ b.row then { workersSpawned := 0, sends := [] }
  else
    { workersSpawned := NUM_THREADS
      sends := ((cellPairs a b).takeWhile
          (fun ij => (cellReply a b ij.1 ij.2).isSome)).map
        (fun ij => ((ij.1 * b.col + ij.2) % NUM_THREADS, ij.1 * b.col + ij.2)) }

/-- The operator form, impl Mul for Matrix, matrix.rs lines 248-257:
multiply(a, b).unwrap_or_else with a panic; `none` = process abort, either
from unwrapping an error or from a panic inside multiply itself. -/
def mulOp {T : Type} [Inhabited T] [Add T] [Mul T] (a b : Matrix T) :
    Option (Matrix T) :=
  match multiply a b with
  | some (Except.ok m) => some m
  | _ => none

/-- The entry at row i, column j of the sequential triple-loop reference
product, following the words of the spec: the dot product of row i of a and
column j of b, accumulated in index order. -/
def refEntry {T : Type} [Inhabited T] [Add T] [Mul T] (a b : Matrix T) (i j : Nat) :
    T :=
  (List.range a.col).foldl
    (fun s k => s + a.data.getD (i * a.col + k) default *
      b.data.getD (k * b.col + j) default) default

/-- The sequential triple-loop reference product, following the words of the
spec: a matrix of shape (a.row, b.col) whose cell (i, j) is refEntry a b i j. -/
def seqMultiply {T : Type} [Inhabited T] [Add T] [Mul T] (a b : Matrix T) :
    Matrix T :=
  { data := (cellPairs a b).map (fun ij => refEntry a b ij.1 ij.2)
    row := a.row
    col := b.col }

/-- Inner loop of the Display implementation, matrix.rs lines 66-75: render the
cells of row i from column j on, with rem = m.col - j cells remaining; `none`
models the panic of the index self.data[i * self.col + j] when out of range. -/
def fmtCellsFrom {T : Type} (m : Matrix T) (toStr : T → String) (i : Nat) :
    Nat → Nat → Option String
  | _, 0 => some ""
  | j, rem + 1 => do
    let x ← m.data[i * m.col + j]?
    let rest ← fmtCellsFrom m toStr i (j + 1) rem
    pure ((toStr x ++ if j ≠ m.col - 1 then " " else "") ++ rest)

/-- Outer loop of the Display implementation, matrix.rs lines 66-80: render the
rows from row i on, with rem = m.row - i rows remaining. -/
def fmtRowsFrom {T : Type} (m : Matrix T) (toStr : T → String) :
    Nat → Nat → Option String
  | _, 0 => some ""
  | i, rem + 1 => do
    let cells ← fmtCellsFrom m toStr i 0 m.col
    let rest ← fmtRowsFrom m toStr (i + 1) rem
    pure ((cells ++ if i ≠ m.row - 1 then ", " else "") ++ rest)

/-- The Display implementation, matrix.rs lines 61-86: an opening brace, the
double loop over cells, a closing brace. -/
def Matrix.fmt {T : Type} (m : Matrix T) (toStr : T → String) : Option String := do
  let body ← fmtRowsFrom m toStr 0 m.row
  pure ("\x7b" ++ body ++ "\x7d")

/-- Joining a list of strings with a separator, following the words of the
spec: rows joined by ", ", elements of a row joined by a single space. -/
def joinSep (sep : String) : List String → String
  | [] => ""
  | [x] => x
  | x :: y :: rest => x ++ sep ++ joinSep sep (y :: rest)

/-- The rendering described by the spec: an opening brace, the rows joined by
comma-space, each row its elements joined by single spaces, a closing brace. -/
def renderSpec {T : Type} (m : Matrix T) (toStr : T → String) : String :=
  "\x7b" ++ joinSep ", " ((List.range m.row).map (fun i =>
    joinSep " " (((m.data.drop (i * m.col)).take m.col).map toStr))) ++ "\x7d"

/-! ### Helper lemmas about the embedded operations -/

theorem stepByAux_getElem? {T : Type} (s : Nat) (hs : 0 < s) (l : List T) :
    ∀ (c k : Nat), (stepByAux l s c)[k]? = l[c + k * s]? := by
  induction l with
  | nil => intro c k; simp [stepByAux]
  | cons x xs ih =>
    intro c k
    cases c with
    | zero =>
      cases k with
      | zero => simp [stepByAux]
      | succ k =>
        have hmul : (k + 1) * s = k * s + s := Nat.succ_mul k s
        have hidx : 0 + (k + 1) * s = ((s - 1) + k * s) + 1 := by omega
        simp only [stepByAux, hidx, List.getElem?_cons_succ]
        exact ih (s - 1) k
    | succ c =>
      have hidx : (c + 1) + k * s = (c + k * s) + 1 := by omega
      simp only [stepByAux, hidx, List.getElem?_cons_succ]
      exact ih c k

theorem stepBy_getElem? {T : Type} (s : Nat) (hs : 0 < s) (l : List T) (k : Nat) :
    (stepBy l s)[k]? = l[k * s]? := by
  have h := stepByAux_getElem? s hs l 0 k
  simpa [stepBy] using h

/-- Pair each element of a list with its position, starting at s. -/
def withIdxFrom {α : Type} : Nat → List α → List (Nat × α)
  | _, [] => []
  | s, x :: xs => (s, x) :: withIdxFrom (s + 1) xs

theorem withIdxFrom_append {α : Type} (l₁ l₂ : List α) :
    ∀ s, withIdxFrom s (l₁ ++ l₂) =
      withIdxFrom s l₁ ++ withIdxFrom (s + l₁.length) l₂ := by
  induction l₁ with
  | nil => intro s; simp [withIdxFrom]
  | cons x xs ih =>
    intro s
    simp only [List.cons_append, withIdxFrom, List.length_cons, List.append_eq,
      ih (s + 1)]
    rw [show s + (xs.length + 1) = (s + 1) + xs.length by omega]

theorem range_withIdx {α : Type} (g : Nat → α) :
    ∀ (n s : Nat), (List.range n).map (fun j => (s + j, g j)) =
      withIdxFrom s ((List.range n).map g) := by
  intro n
  induction n with
  | zero => intro s; simp [withIdxFrom]
  | succ n ih =>
    intro s
    rw [List.range_succ, List.map_append, List.map_append, withIdxFrom_append,
      ← ih s, List.length_map, List.length_range]
    simp [withIdxFrom]

theorem pairGrid_succ (m q : Nat) :
    pairGrid (m + 1) q = pairGrid m q ++ (List.range q).map (fun j => (m, j)) := by
  simp [pairGrid, List.range_succ]

theorem length_pairGrid (m q : Nat) : (pairGrid m q).length = m * q := by
  induction m with
  | zero => simp [pairGrid]
  | succ m ih => rw [pairGrid_succ, List.length_append, ih]; simp [Nat.succ_mul]

theorem mem_pairGrid {m q i j : Nat} : (i, j) ∈ pairGrid m q ↔ i < m ∧ j < q := by
  simp only [pairGrid, List.mem_flatMap, List.mem_map, List.mem_range,
    Prod.mk.injEq]
  constructor
  · rintro ⟨i', hi', j', hj', hji, hjj⟩
    subst hji; subst hjj; exact ⟨hi', hj'⟩
  · rintro ⟨hi, hj⟩
    exact ⟨i, hi, j, hj, rfl, rfl⟩

theorem pairGrid_enum {α : Type} (q : Nat) (f : Nat × Nat → α) :
    ∀ m, (pairGrid m q).map (fun ij => (ij.1 * q + ij.2, f ij)) =
      withIdxFrom 0 ((pairGrid m q).map f) := by
  intro m
  induction m with
  | zero => simp [pairGrid, withIdxFrom]
  | succ m ih =>
    rw [pairGrid_succ, List.map_append, List.map_append, withIdxFrom_append,
      ← ih, List.length_map, length_pairGrid]
    congr 1
    rw [List.map_map, List.map_map]
    have h := range_withIdx (fun j => f (m, j)) q (m * q)
    simpa [Function.comp] using h

theorem pairGrid_toIdx (q : Nat) :
    ∀ m, (pairGrid m q).map (fun ij => ij.1 * q + ij.2) = List.range (m * q) := by
  intro m
  induction m with
  | zero => simp [pairGrid]
  | succ m ih =>
    rw [pairGrid_succ, List.map_append, ih, Nat.succ_mul, List.range_add]
    congr 1
    rw [List.map_map]
    rfl

theorem collectResults_withIdxFrom {T : Type} (vs : List T) :
    ∀ (d : List T) (s : Nat), s + vs.length = d.length →
      collectResults d (withIdxFrom s (vs.map some)) = Except.ok (d.take s ++ vs) := by
  induction vs with
  | nil =>
    intro d s h
    simp only [List.length_nil, Nat.add_zero] at h
    simp [withIdxFrom, collectResults, h, List.take_length]
  | cons v vs ih =>
    intro d s h
    simp only [List.map_cons, withIdxFrom, collectResults]
    rw [ih (d.set s v) (s + 1) (by simp [List.length_set]; simp at h; omega)]
    have hs : s < d.length := by simp at h; omega
    have h1 : (d.set s v).take s = d.take s := by
      apply List.ext_getElem?
      intro n
      rw [List.getElem?_take, List.getElem?_take]
      by_cases hn : n < s
      · rw [if_pos hn, if_pos hn, List.getElem?_set_ne (by omega : s ≠ n)]
      · rw [if_neg hn, if_neg hn]
    rw [List.take_succ, h1, List.getElem?_set_self hs]
    simp

theorem collectResults_error {T : Type} :
    ∀ (l : List (Nat × Option T)) (d : List T) (e : MultiplyError),
      collectResults d l = Except.error e → e = MultiplyError.ChannelRecvFailure := by
  intro l
  induction l with
  | nil => intro d e h; simp [collectResults] at h
  | cons p rest ih =>
    intro d e h
    obtain ⟨idx, r⟩ := p
    cases r with
    | none =>
      simp only [collectResults] at h
      exact (Except.error.inj h).symm
    | some v => exact ih (d.set idx v) e h

theorem collectResults_none_mem {T : Type} :
    ∀ (l : List (Nat × Option T)) (d : List T),
      (∃ p ∈ l, p.2 = none) →
      collectResults d l = Except.error MultiplyError.ChannelRecvFailure := by
  intro l
  induction l with
  | nil => rintro d ⟨p, hp, _⟩; simp at hp
  | cons hd rest ih =>
    rintro d ⟨p, hp, hnone⟩
    obtain ⟨idx, r⟩ := hd
    cases r with
    | none => simp [collectResults]
    | some v =>
      rcases List.mem_cons.mp hp with h | h
      · subst h; simp at hnone
      · exact ih (d.set idx v) ⟨p, h, hnone⟩

theorem foldl_fn_congr {α β : Type} :
    ∀ (l : List α) (f g : β → α → β) (b : β),
      (∀ s x, x ∈ l → f s x = g s x) → l.foldl f b = l.foldl g b := by
  intro l
  induction l with
  | nil => intro f g b _; rfl
  | cons x xs ih =>
    intro f g b h
    simp only [List.foldl_cons]
    rw [h b x (List.mem_cons_self x xs)]
    exact ih f g (g b x) (fun s y hy => h s y (List.mem_cons_of_mem x hy))

/-- The caller guarantee of section 6 of the spec: the buffer has the declared
length rows times cols. -/
def WellFormed {T : Type} (m : Matrix T) : Prop :=
  m.data.length = m.row * m.col

theorem rowOf_wf {T : Type} [Inhabited T] (a : Matrix T) (ha : WellFormed a)
    (i : Nat) (hi : i < a.row) :
    rowOf a i =
      some ((List.range a.col).map (fun k => a.data.getD (i * a.col + k) default)) := by
  have hlen : (i + 1) * a.col ≤ a.data.length := by
    rw [ha]
    exact Nat.mul_le_mul_right _ hi
  rw [rowOf, if_pos hlen]
  congr 1
  apply List.ext_getElem?
  intro k
  by_cases hk : k < a.col
  · have hidx : i * a.col + k < a.data.length := by
      have hs : (i + 1) * a.col = i * a.col + a.col := Nat.succ_mul i a.col
      omega
    rw [List.getElem?_take, if_pos hk, List.getElem?_drop, List.getElem?_map,
      List.getElem?_range hk, List.getElem?_eq_getElem hidx]
    simp [List.getD, List.getElem?_eq_getElem hidx]
  · rw [List.getElem?_take, if_neg hk, List.getElem?_map,
      List.getElem?_eq_none (l := List.range a.col) (by simp; omega)]
    rfl

theorem colOf_wf {T : Type} [Inhabited T] (b : Matrix T) (hb : WellFormed b)
    (j : Nat) (hj : j < b.col) (hdeg : 1 ≤ b.row ∨ b.col ≤ 1) :
    colOf b j =
      some ((List.range b.row).map (fun k => b.data.getD (k * b.col + j) default)) := by
  have hq : 0 < b.col := by omega
  have hjlen : j ≤ b.data.length := by
    rcases hdeg with h1 | h1
    · have h2 : 1 * b.col ≤ b.row * b.col := Nat.mul_le_mul_right _ h1
      rw [hb]; omega
    · omega
  rw [colOf, if_pos ⟨hjlen, hq⟩]
  congr 1
  apply List.ext_getElem?
  intro k
  rw [stepBy_getElem? b.col hq, List.getElem?_drop, List.getElem?_map]
  by_cases hk : k < b.row
  · have hidx : j + k * b.col < b.data.length := by
      rw [hb]
      have h2 : (k + 1) * b.col ≤ b.row * b.col := Nat.mul_le_mul_right _ hk
      have h3 : (k + 1) * b.col = k * b.col + b.col := Nat.succ_mul k b.col
      omega
    rw [List.getElem?_range hk, List.getElem?_eq_getElem hidx]
    have hcomm : j + k * b.col = k * b.col + j := by omega
    simp [List.getD, hcomm, List.getElem?_eq_getElem (hcomm ▸ hidx)]
  · have hge : b.data.length ≤ j + k * b.col := by
      rw [hb]
      have h2 : b.row * b.col ≤ k * b.col := Nat.mul_le_mul_right _ (by omega)
      omega
    rw [List.getElem?_eq_none (l := List.range b.row) (by simp; omega),
      List.getElem?_eq_none hge]
    rfl

theorem cellReply_ok {T : Type} [Inhabited T] [Add T] [Mul T] (a b : Matrix T)
    (ha : WellFormed a) (hb : WellFormed b) (hab : a.col = b.row)
    (hdeg : 1 ≤ b.row ∨ b.col ≤ 1) (i j : Nat) (hi : i < a.row) (hj : j < b.col) :
    cellReply a b i j = some (some (refEntry a b i j)) := by
  rw [cellReply, rowOf_wf a ha i hi, colOf_wf b hb j hj hdeg]
  rw [← hab]
  simp only [Option.pure_def, Option.bind_eq_bind, Option.some_bind]
  rw [dot_product, Vector.new, Vector.new]
  rw [if_neg (by simp)]
  simp only [List.zipWith_map, List.zipWith_same, List.foldl_map, refEntry,
    Except.toOption]

theorem cellReplyAt_ok {T : Type} [Inhabited T] [Add T] [Mul T] (a b : Matrix T)
    (ha : WellFormed a) (hb : WellFormed b) (hab : a.col = b.row)
    (hdeg : 1 ≤ b.row ∨ b.col ≤ 1) (k : Nat) (hk : k < a.row * b.col) :
    cellReplyAt a b k = some (some (refEntry a b (k / b.col) (k % b.col))) := by
  have hq : 0 < b.col := by
    rcases Nat.eq_zero_or_pos b.col with h0 | h0
    · rw [h0, Nat.mul_zero] at hk; omega
    · exact h0
  have hk2 : k < b.col * a.row := by rw [Nat.mul_comm]; exact hk
  have hi : k / b.col < a.row := Nat.div_lt_of_lt_mul hk2
  exact cellReply_ok a b ha hb hab hdeg _ _ hi (Nat.mod_lt _ hq)

theorem cellReplyAt_not_dropped {T : Type} [Inhabited T] [Add T] [Mul T]
    (a b : Matrix T) (ha : WellFormed a) (hb : WellFormed b) (hab : a.col = b.row)
    (hdeg : 1 ≤ b.row ∨ b.col ≤ 1) (k : Nat) :
    isDroppedReply (cellReplyAt a b k) = false := by
  by_cases hk : k < a.row * b.col
  · rw [cellReplyAt_ok a b ha hb hab hdeg k hk]; rfl
  by_cases hq : 0 < b.col
  · push_neg at hk
    have hge : a.row ≤ k / b.col := Nat.le_div_iff_mul_le hq |>.mpr hk
    by_cases hcol : 0 < a.col
    · have hpanic : ¬ ((k / b.col + 1) * a.col ≤ a.data.length) := by
        rw [ha]
        have h2 : (a.row + 1) * a.col ≤ (k / b.col + 1) * a.col :=
          Nat.mul_le_mul_right _ (by omega)
        have h3 : (a.row + 1) * a.col = a.row * a.col + a.col := Nat.succ_mul _ _
        omega
      simp [cellReplyAt, cellReply, rowOf, hpanic, isDroppedReply]
    · have hcol0 : a.col = 0 := by omega
      have hrow0 : b.row = 0 := by omega
      have hlen0 : b.data.length = 0 := by rw [hb, hrow0]; simp
      have hdata : b.data = [] := List.length_eq_zero.mp hlen0
      by_cases hj : k % b.col = 0
      · simp [cellReplyAt, cellReply, rowOf, hcol0, colOf, hj, hlen0, hdata, hq,
          stepBy, stepByAux, dot_product, isDroppedReply, Except.toOption]
      · simp only [cellReplyAt, cellReply, colOf, hlen0]
        rw [if_neg (by omega)]
        cases hrow : rowOf a (k / b.col) with
        | none => simp [hrow, isDroppedReply]
        | some r => simp [hrow, isDroppedReply]
  · have hq0 : b.col = 0 := by omega
    simp only [cellReplyAt, cellReply, colOf]
    rw [if_neg (by omega)]
    cases hrow : rowOf a (k / b.col) with
    | none => simp [hrow, isDroppedReply]
    | some r => simp [hrow, isDroppedReply]

theorem deadBefore_false {T : Type} [Inhabited T] [Add T] [Mul T] (a b : Matrix T)
    (ha : WellFormed a) (hb : WellFormed b) (hab : a.col = b.row)
    (hdeg : 1 ≤ b.row ∨ b.col ≤ 1) (idx : Nat) :
    deadBefore a b idx = false := by
  rw [deadBefore, List.any_eq_false]
  intro k _
  rw [cellReplyAt_not_dropped a b ha hb hab hdeg k]
  simp

theorem dispatchAll_ok {T : Type} [Inhabited T] [Add T] [Mul T] (s : Nat → Bool)
    (a b : Matrix T) (r : Nat × Nat → Option T) :
    ∀ l : List (Nat × Nat),
      (∀ ij ∈ l, cellReply a b ij.1 ij.2 = some (r ij) ∧
        (s (ij.1 * b.col + ij.2) && !deadBefore a b (ij.1 * b.col + ij.2)) = true) →
      dispatchAll s a b l = some (l.map (fun ij => (ij.1 * b.col + ij.2, r ij))) := by
  intro l
  induction l with
  | nil => intro _; rfl
  | cons ij rest ih =>
    intro h
    have hij := h ij (List.mem_cons_self ij rest)
    have hrest := ih (fun x hx => h x (List.mem_cons_of_mem ij hx))
    simp only [dispatchAll, hij.1, hrest, Option.pure_def, Option.bind_eq_bind,
      Option.some_bind, List.map_cons, hij.2, if_true]

theorem multiply_eq_seq {T : Type} [Inhabited T] [Add T] [Mul T] (a b : Matrix T)
    (ha : WellFormed a) (hb : WellFormed b) (hab : a.col = b.row)
    (hdeg : 1 ≤ b.row ∨ b.col ≤ 1) :
    multiply a b = some (Except.ok (seqMultiply a b)) := by
  rw [multiply, multiplyWith, if_neg (by simp [hab]), cellPairs]
  rw [dispatchAll_ok (fun _ => true) a b
    (fun ij => some (refEntry a b ij.1 ij.2)) (pairGrid a.row b.col) ?hcond]
  case hcond =>
    intro ij hmem
    obtain ⟨i, j⟩ := ij
    have hij := mem_pairGrid.mp hmem
    refine ⟨cellReply_ok a b ha hb hab hdeg i j hij.1 hij.2, ?_⟩
    rw [deadBefore_false a b ha hb hab hdeg]
    rfl
  have henum := pairGrid_enum b.col (fun ij => some (refEntry a b ij.1 ij.2)) a.row
  rw [Option.map_some', henum]
  have hmm : (pairGrid a.row b.col).map (fun ij => some (refEntry a b ij.1 ij.2))
      = ((pairGrid a.row b.col).map (fun ij => refEntry a b ij.1 ij.2)).map some := by
    rw [List.map_map]; rfl
  rw [hmm, collectResults_withIdxFrom _ _ 0
    (by simp [List.length_map, length_pairGrid])]
  simp [seqMultiply, cellPairs, Except.map]

theorem multiplyWith_dim_iff {T : Type} [Inhabited T] [Add T] [Mul T]
    (s : Nat → Bool) (a b : Matrix T) :
    multiplyWith s a b = some (Except.error MultiplyError.DimensionMismatch) ↔
      a.col ≠ b.row := by
  constructor
  · intro h
    by_contra hab
    rw [multiplyWith, if_neg (by simp [hab])] at h
    cases hd : dispatchAll s a b (cellPairs a b) with
    | none => rw [hd] at h; simp at h
    | some rs =>
      rw [hd, Option.map_some'] at h
      cases hc : collectResults (List.replicate (a.row * b.col) default) rs with
      | ok d => rw [hc] at h; simp [Except.map] at h
      | error e =>
        have he := collectResults_error rs _ e hc
        rw [hc] at h
        simp only [Except.map, Option.some.injEq] at h
        rw [he] at h
        exact MultiplyError.noConfusion (Except.error.inj h)
  · intro hab
    rw [multiplyWith, if_pos hab]

theorem dispatchAll_sched_congr {T : Type} [Inhabited T] [Add T] [Mul T]
    (s₁ s₂ : Nat → Bool) (a b : Matrix T) :
    ∀ l : List (Nat × Nat),
      (∀ ij ∈ l, (s₁ (ij.1 * b.col + ij.2) && !deadBefore a b (ij.1 * b.col + ij.2))
        = (s₂ (ij.1 * b.col + ij.2) && !deadBefore a b (ij.1 * b.col + ij.2))) →
      dispatchAll s₁ a b l = dispatchAll s₂ a b l := by
  intro l
  induction l with
  | nil => intro _; rfl
  | cons ij rest ih =>
    intro h
    simp only [dispatchAll]
    rw [ih (fun x hx => h x (List.mem_cons_of_mem ij hx)),
      h ij (List.mem_cons_self ij rest)]

theorem toIdx_lt {i j m q : Nat} (hi : i < m) (hj : j < q) : i * q + j < m * q := by
  have h1 : (i + 1) * q ≤ m * q := Nat.mul_le_mul_right _ hi
  have h2 : (i + 1) * q = i * q + q := Nat.succ_mul i q
  omega

theorem multiplyWith_valid_eq {T : Type} [Inhabited T] [Add T] [Mul T]
    (a b : Matrix T) (s₁ s₂ : Nat → Bool)
    (h₁ : validSchedule a b s₁) (h₂ : validSchedule a b s₂) :
    multiplyWith s₁ a b = multiplyWith s₂ a b := by
  by_cases hab : a.col ≠ b.row
  · rw [multiplyWith, multiplyWith, if_pos hab, if_pos hab]
  · rw [multiplyWith, multiplyWith, if_neg (by simp [hab]), if_neg (by simp [hab]),
      dispatchAll_sched_congr s₁ s₂ a b (cellPairs a b) ?cond]
    case cond =>
      intro ij hmem
      obtain ⟨i, j⟩ := ij
      have hij := mem_pairGrid.mp hmem
      have hlt : i * b.col + j < a.row * b.col := toIdx_lt hij.1 hij.2
      cases hd : deadBefore a b (i * b.col + j) with
      | true => simp
      | false =>
        have e₁ : s₁ (i * b.col + j) = true := by
          cases hs : s₁ (i * b.col + j) with
          | true => rfl
          | false => rw [h₁ _ hlt hs] at hd; exact Bool.noConfusion hd
        have e₂ : s₂ (i * b.col + j) = true := by
          cases hs : s₂ (i * b.col + j) with
          | true => rfl
          | false => rw [h₂ _ hlt hs] at hd; exact Bool.noConfusion hd
        rw [e₁, e₂]

theorem dispatchAll_mem_none {T : Type} [Inhabited T] [Add T] [Mul T]
    (s : Nat → Bool) (a b : Matrix T) :
    ∀ (l : List (Nat × Nat)) (rs : List (Nat × Option T)),
      dispatchAll s a b l = some rs →
      ∀ ij ∈ l,
        (s (ij.1 * b.col + ij.2) = false ∨ cellReply a b ij.1 ij.2 = some none ∨
          deadBefore a b (ij.1 * b.col + ij.2) = true) →
        ∃ p ∈ rs, p.2 = (none : Option T) := by
  intro l
  induction l with
  | nil => intro rs _ ij hmem; simp at hmem
  | cons hd rest ih =>
    intro rs h ij hmem hcond
    simp only [dispatchAll, Option.pure_def, Option.bind_eq_bind] at h
    cases hr : cellReply a b hd.1 hd.2 with
    | none => rw [hr] at h; simp at h
    | some r0 =>
      rw [hr] at h
      cases hrest : dispatchAll s a b rest with
      | none => rw [hrest] at h; simp at h
      | some others =>
        rw [hrest] at h
        simp only [Option.some_bind, Option.some.injEq] at h
        rcases List.mem_cons.mp hmem with hh | hh
        · subst hh
          refine ⟨(ij.1 * b.col + ij.2,
            if s (ij.1 * b.col + ij.2) && !deadBefore a b (ij.1 * b.col + ij.2)
              then r0 else none), ?_, ?_⟩
          · rw [← h]; exact List.mem_cons_self _ _
          · rcases hcond with hc | hc | hc
            · simp [hc]
            · rw [hr] at hc
              rw [Option.some.inj hc]
              cases (s (ij.1 * b.col + ij.2) && !deadBefore a b (ij.1 * b.col + ij.2))
                <;> rfl
            · simp [hc]
        · obtain ⟨p, hp, hpn⟩ := ih others hrest ij hh hcond
          exact ⟨p, by rw [← h]; exact List.mem_cons_of_mem _ hp, hpn⟩

theorem multiplyWith_dropped_fails {T : Type} [Inhabited T] [Add T] [Mul T]
    (s : Nat → Bool) (a b : Matrix T) (hab : a.col = b.row) (idx : Nat)
    (hidx : idx < a.row * b.col)
    (hdrop : s idx = false ∨ cellReply a b (idx / b.col) (idx % b.col) = some none ∨
      deadBefore a b idx = true) :
    multiplyWith s a b = none ∨
      multiplyWith s a b = some (Except.error MultiplyError.ChannelRecvFailure) := by
  rw [multiplyWith, if_neg (by simp [hab])]
  cases hd : dispatchAll s a b (cellPairs a b) with
  | none => exact Or.inl rfl
  | some rs =>
    right
    have hq : 0 < b.col := by
      rcases Nat.eq_zero_or_pos b.col with h0 | h0
      · rw [h0, Nat.mul_zero] at hidx; omega
      · exact h0
    have hk2 : idx < b.col * a.row := by rw [Nat.mul_comm]; exact hidx
    have hmem : (idx / b.col, idx % b.col) ∈ cellPairs a b :=
      mem_pairGrid.mpr ⟨Nat.div_lt_of_lt_mul hk2, Nat.mod_lt _ hq⟩
    have hdm : (idx / b.col) * b.col + idx % b.col = idx := by
      rw [Nat.mul_comm]; exact Nat.div_add_mod idx b.col
    have hnone : ∃ p ∈ rs, p.2 = (none : Option T) := by
      apply dispatchAll_mem_none s a b (cellPairs a b) rs hd _ hmem
      simpa [hdm] using hdrop
    rw [Option.map_some', collectResults_none_mem rs _ hnone]
    rfl

theorem fmtCellsFrom_eq {T : Type} (m : Matrix T) (toStr : T → String) (i : Nat)
    (hi : i < m.row) (hwf : WellFormed m) :
    ∀ (rem j : Nat), j + rem = m.col →
      fmtCellsFrom m toStr i j rem =
        some (joinSep " "
          ((((m.data.drop (i * m.col)).take m.col).drop j).map toStr)) := by
  have hlen : ((m.data.drop (i * m.col)).take m.col).length = m.col := by
    rw [List.length_take, List.length_drop, hwf]
    have h1 : (i + 1) * m.col ≤ m.row * m.col := Nat.mul_le_mul_right _ hi
    have h2 : (i + 1) * m.col = i * m.col + m.col := Nat.succ_mul i m.col
    omega
  intro rem
  induction rem with
  | zero =>
    intro j hj
    rw [List.drop_eq_nil_of_le (by omega : ((m.data.drop (i * m.col)).take m.col).length ≤ j)]
    rfl
  | succ rem ih =>
    intro j hj
    have hjcol : j < m.col := by omega
    have hidx : i * m.col + j < m.data.length := by
      rw [hwf]; exact toIdx_lt hi hjcol
    have hRlen : j < ((m.data.drop (i * m.col)).take m.col).length := by omega
    have hget : ((m.data.drop (i * m.col)).take m.col).get ⟨j, hRlen⟩
        = m.data.get ⟨i * m.col + j, hidx⟩ := by
      have h1 : ((m.data.drop (i * m.col)).take m.col)[j]?
          = m.data[i * m.col + j]? := by
        rw [List.getElem?_take, if_pos hjcol, List.getElem?_drop]
      rw [List.getElem?_eq_getElem hRlen, List.getElem?_eq_getElem hidx] at h1
      exact Option.some.inj h1
    have hR : ((m.data.drop (i * m.col)).take m.col).drop j
        = m.data.get ⟨i * m.col + j, hidx⟩
          :: ((m.data.drop (i * m.col)).take m.col).drop (j + 1) := by
      rw [List.drop_eq_getElem_cons hRlen, ← hget]
      rfl
    rw [hR]
    simp only [fmtCellsFrom, List.getElem?_eq_getElem hidx, ih (j + 1) (by omega),
      Option.pure_def, Option.bind_eq_bind, Option.some_bind, List.map_cons,
      Option.some.injEq]
    cases rem with
    | zero =>
      have hlast : ¬ (j ≠ m.col - 1) := by omega
      rw [if_neg hlast,
        List.drop_eq_nil_of_le (by omega : ((m.data.drop (i * m.col)).take m.col).length ≤ j + 1)]
      simp only [List.map_nil, joinSep, String.append_empty]
      rfl
    | succ rem2 =>
      have hsep : j ≠ m.col - 1 := by omega
      rw [if_pos hsep]
      have hne : (((m.data.drop (i * m.col)).take m.col).drop (j + 1)).map toStr ≠ [] := by
        intro hnil
        have := congrArg List.length hnil
        simp only [List.length_map, List.length_drop, hlen, List.length_nil] at this
        omega
      obtain ⟨y, L, hL⟩ := List.exists_cons_of_ne_nil hne
      rw [hL]
      rfl

theorem fmtRowsFrom_eq {T : Type} (m : Matrix T) (toStr : T → String)
    (hwf : WellFormed m) :
    ∀ (rem i : Nat), i + rem = m.row →
      fmtRowsFrom m toStr i rem =
        some (joinSep ", " (((List.range m.row).drop i).map (fun r =>
          joinSep " " (((m.data.drop (r * m.col)).take m.col).map toStr)))) := by
  intro rem
  induction rem with
  | zero =>
    intro i hi
    have hnil : (List.range m.row).drop i = [] :=
      List.drop_eq_nil_of_le (by simp [List.length_range]; omega)
    rw [hnil]
    rfl
  | succ rem ih =>
    intro i hi
    have hirow : i < m.row := by omega
    have hRlen : i < (List.range m.row).length := by simp [List.length_range]; omega
    have hR : (List.range m.row).drop i = i :: (List.range m.row).drop (i + 1) := by
      rw [List.drop_eq_getElem_cons hRlen]
      congr 1
      have h1 := List.getElem?_eq_getElem hRlen
      rw [List.getElem?_range hirow] at h1
      exact (Option.some.inj h1).symm
    rw [hR]
    have hcells := fmtCellsFrom_eq m toStr i hirow hwf m.col 0 (by omega)
    rw [List.drop_zero] at hcells
    simp only [fmtRowsFrom, hcells, ih (i + 1) (by omega), Option.pure_def,
      Option.bind_eq_bind, Option.some_bind, List.map_cons, Option.some.injEq]
    cases rem with
    | zero =>
      have hlast : ¬ (i ≠ m.row - 1) := by omega
      have hnil : (List.range m.row).drop (i + 1) = [] :=
        List.drop_eq_nil_of_le (by simp [List.length_range]; omega)
      rw [if_neg hlast, hnil]
      simp only [List.map_nil, joinSep, String.append_empty]
    | succ rem2 =>
      have hsep : i ≠ m.row - 1 := by omega
      rw [if_pos hsep]
      have hne : (((List.range m.row).drop (i + 1)).map (fun r =>
          joinSep " " (((m.data.drop (r * m.col)).take m.col).map toStr))) ≠ [] := by
        intro hnil
        have := congrArg List.length hnil
        simp only [List.length_map, List.length_drop, List.length_range,
          List.length_nil] at this
        omega
      obtain ⟨y, L, hL⟩ := List.exists_cons_of_ne_nil hne
      rw [hL]
      rfl

theorem fmt_eq_renderSpec {T : Type} (m : Matrix T) (toStr : T → String)
    (hwf : WellFormed m) :
    Matrix.fmt m toStr = some (renderSpec m toStr) := by
  rw [Matrix.fmt]
  rw [fmtRowsFrom_eq m toStr hwf m.row 0 (by omega)]
  rw [List.drop_zero] at *
  rfl

theorem pairGrid_getElem? (m q k : Nat) (hk : k < m * q) :
    (pairGrid m q)[k]? = some (k / q, k % q) := by
  have hq : 0 < q := by
    rcases Nat.eq_zero_or_pos q with h0 | h0
    · rw [h0, Nat.mul_zero] at hk; omega
    · exact h0
  have hlen : k < (pairGrid m q).length := by rw [length_pairGrid]; exact hk
  obtain ⟨ij, hij⟩ : ∃ ij, (pairGrid m q)[k]? = some ij :=
    ⟨_, List.getElem?_eq_getElem hlen⟩
  have hmem : ij ∈ pairGrid m q := List.getElem?_mem hij
  obtain ⟨i, j⟩ := ij
  have hb := mem_pairGrid.mp hmem
  have htoIdx : i * q + j = k := by
    have h1 := congrArg (fun l => l[k]?) (pairGrid_toIdx q m)
    simp only [List.getElem?_map, hij, Option.map_some'] at h1
    rw [List.getElem?_range hk] at h1
    exact Option.some.inj h1
  have hcomm : i * q + j = j + i * q := by omega
  have hdiv : k / q = i := by
    rw [← htoIdx, hcomm, Nat.add_mul_div_right _ _ hq, Nat.div_eq_of_lt hb.2]
    omega
  have hmod : k % q = j := by
    rw [← htoIdx, hcomm, Nat.add_mul_mod_self_right, Nat.mod_eq_of_lt hb.2]
  rw [hij, hdiv, hmod]

theorem seqMultiply_entry {T : Type} [Inhabited T] [Add T] [Mul T]
    (a b : Matrix T) (i j : Nat) (hi : i < a.row) (hj : j < b.col) :
    (seqMultiply a b).data[i * b.col + j]? = some (refEntry a b i j) := by
  have hq : 0 < b.col := by omega
  have hk : i * b.col + j < a.row * b.col := toIdx_lt hi hj
  have hdiv : (i * b.col + j) / b.col = i := by
    rw [show i * b.col + j = j + i * b.col by omega,
      Nat.add_mul_div_right _ _ hq, Nat.div_eq_of_lt hj]
    omega
  have hmod : (i * b.col + j) % b.col = j := by
    rw [show i * b.col + j = j + i * b.col by omega,
      Nat.add_mul_mod_self_right, Nat.mod_eq_of_lt hj]
  show ((cellPairs a b).map (fun ij => refEntry a b ij.1 ij.2))[i * b.col + j]?
      = some (refEntry a b i j)
  rw [List.getElem?_map, cellPairs, pairGrid_getElem? a.row b.col _ hk,
    Option.map_some', hdiv, hmod]

theorem multiplyTrace_wf {T : Type} [Inhabited T] [Add T] [Mul T] (a b : Matrix T)
    (ha : WellFormed a) (hb : WellFormed b) (hab : a.col = b.row)
    (hdeg : 1 ≤ b.row ∨ b.col ≤ 1) :
    multiplyTrace a b =
      { workersSpawned := NUM_THREADS
        sends := (List.range (a.row * b.col)).map (fun k => (k % NUM_THREADS, k)) } := by
  rw [multiplyTrace, if_neg (by simp [hab])]
  have hall : (cellPairs a b).takeWhile
      (fun ij => (cellReply a b ij.1 ij.2).isSome) = cellPairs a b := by
    rw [List.takeWhile_eq_self_iff]
    intro ij hmem
    obtain ⟨i, j⟩ := ij
    have hij := mem_pairGrid.mp hmem
    rw [cellReply_ok a b ha hb hab hdeg i j hij.1 hij.2]
    rfl
  rw [hall]
  have hsteps : (cellPairs a b).map
      (fun ij => ((ij.1 * b.col + ij.2) % NUM_THREADS, ij.1 * b.col + ij.2))
      = ((cellPairs a b).map (fun ij => ij.1 * b.col + ij.2)).map
        (fun k => (k % NUM_THREADS, k)) := by
    rw [List.map_map]; rfl
  rw [hsteps, cellPairs, pairGrid_toIdx]

theorem workerRun_dim_failure {T : Type} [Inhabited T] [Add T] [Mul T]
    (r c : Vector T) (rest : List (Vector T × Vector T)) (e : MultiplyError)
    (h : dot_product r c = Except.error e) :
    workerRun ((r, c) :: rest) = none :: rest.map (fun _ => none) := by
  simp [workerRun, h]

/-! ### Claims -/

/-- Claim C1, amended: for matrices a of shape (m, n) and b of shape (n, q)
whose buffers have the declared lengths, and such that b has at least one row
or at most one column (without this the column slice b.data[j..] panics for
j above the empty buffer length), multiply returns Ok of the sequential
triple-loop reference product: a matrix of shape (m, q) whose entry at row i,
column j is refEntry a b i j, the dot product of row i of a with column j
of b. -/
theorem C1_product {T : Type} [Inhabited T] [Add T] [Mul T] (a b : Matrix T)
    (ha : WellFormed a) (hb : WellFormed b) (hab : a.col = b.row)
    (hdeg : 1 ≤ b.row ∨ b.col ≤ 1) :
    multiply a b = some (Except.ok (seqMultiply a b)) ∧
    (seqMultiply a b).row = a.row ∧ (seqMultiply a b).col = b.col ∧
    ∀ i j, i < a.row → j < b.col →
      (seqMultiply a b).data[i * b.col + j]? = some (refEntry a b i j) := by
  refine ⟨multiply_eq_seq a b ha hb hab hdeg, rfl, rfl, ?_⟩
  intro i j hi hj
  exact seqMultiply_entry a b i j hi hj

/-- Witness for C1 at the concrete case of the spec: A = [[1,2,3],[4,5,6]],
B = [[7,8],[9,10],[11,12]], product [[58,64],[139,154]]. -/
theorem C1_product_witness :
    WellFormed (Matrix.new [1, 2, 3, 4, 5, 6] 2 3 : Matrix Int) ∧
    WellFormed (Matrix.new [7, 8, 9, 10, 11, 12] 3 2 : Matrix Int) ∧
    multiply (Matrix.new [1, 2, 3, 4, 5, 6] 2 3 : Matrix Int)
        (Matrix.new [7, 8, 9, 10, 11, 12] 3 2)
      = some (Except.ok (Matrix.new [58, 64, 139, 154] 2 2)) :=
  ⟨rfl, rfl,
    ((C1_product (Matrix.new [1, 2, 3, 4, 5, 6] 2 3)
      (Matrix.new [7, 8, 9, 10, 11, 12] 3 2) rfl rfl rfl
      (Or.inl (by decide))).1).trans (by decide)⟩

/-- Counterexample to C1 as stated: the well-formed pair A of shape (1, 0) and
B of shape (0, 2) satisfies every hypothesis of the claim, yet multiply panics
(modelled as none) while slicing b.data[1..] instead of returning Ok. -/
theorem C1_product_counterexample :
    multiply (Matrix.new ([] : List Int) 1 0) (Matrix.new [] 0 2) = none := by
  decide

/-- Claim C2: multiply returns a DimensionMismatch error exactly when
a.col differs from b.row, and in that case it returns before spawning any
worker or sending any task (the trace is empty). -/
theorem C2_dimension_check {T : Type} [Inhabited T] [Add T] [Mul T]
    (a b : Matrix T) :
    (multiply a b = some (Except.error MultiplyError.DimensionMismatch) ↔
      a.col ≠ b.row) ∧
    (a.col ≠ b.row →
      multiplyTrace a b = { workersSpawned := 0, sends := [] }) := by
  refine ⟨multiplyWith_dim_iff (fun _ => true) a b, ?_⟩
  intro h
  rw [multiplyTrace, if_pos h]

/-- Witness for C2 at the mismatched pair A (2 by 3) and B (2 by 2). -/
theorem C2_dimension_check_witness :
    multiply (Matrix.new [1, 2, 3, 4, 5, 6] 2 3 : Matrix Int)
        (Matrix.new [1, 2, 3, 4] 2 2)
      = some (Except.error MultiplyError.DimensionMismatch) ∧
    multiplyTrace (Matrix.new [1, 2, 3, 4, 5, 6] 2 3 : Matrix Int)
        (Matrix.new [1, 2, 3, 4] 2 2)
      = { workersSpawned := 0, sends := [] } :=
  ⟨(C2_dimension_check (Matrix.new [1, 2, 3, 4, 5, 6] 2 3)
      (Matrix.new [1, 2, 3, 4] 2 2)).1.mpr (by decide),
   (C2_dimension_check (Matrix.new [1, 2, 3, 4, 5, 6] 2 3)
      (Matrix.new [1, 2, 3, 4] 2 2)).2 (by decide)⟩

/-- Claim C3: for every well-formed matrix with at least one row and one
column, the Display rendering is exactly an opening brace, the rows joined by
comma-space, and a closing brace, each row being its elements joined by
single spaces. -/
theorem C3_display {T : Type} (m : Matrix T) (toStr : T → String)
    (_hrow : 1 ≤ m.row) (_hcol : 1 ≤ m.col) (hwf : WellFormed m) :
    Matrix.fmt m toStr = some (renderSpec m toStr) :=
  fmt_eq_renderSpec m toStr hwf

/-- Witness for C3 at the 2 by 2 matrix [[58,64],[139,154]]. -/
theorem C3_display_witness :
    WellFormed (Matrix.new [58, 64, 139, 154] 2 2 : Matrix Int) ∧
    Matrix.fmt (Matrix.new [58, 64, 139, 154] 2 2 : Matrix Int) toString
      = some "\x7b58 64, 139 154\x7d" :=
  ⟨rfl,
    (C3_display (Matrix.new [58, 64, 139, 154] 2 2) toString (by decide)
      (by decide) rfl).trans (by decide)⟩

/-- Claim C4, amended: for every well-formed matrix b with at least one row
(without a row, the slice b.data[j..] panics for j of at least 1) and every
column index j below b.col, the materialized column j is the vector of every
b.col-th buffer element starting at offset j. -/
theorem C4_column {T : Type} [Inhabited T] (b : Matrix T) (j : Nat)
    (hb : WellFormed b) (hj : j < b.col) (hrow : 1 ≤ b.row) :
    colOf b j =
      some ((List.range b.row).map (fun k => b.data.getD (j + k * b.col) default)) := by
  rw [colOf_wf b hb j hj (Or.inl hrow)]
  congr 1
  apply List.map_congr_left
  intro k _
  rw [Nat.add_comm (k * b.col) j]

/-- Witness for C4 at the concrete case of the spec: B of shape (3, 2) with
buffer [7,8,9,10,11,12]; column 1 materializes to [8,10,12]. -/
theorem C4_column_witness :
    WellFormed (Matrix.new [7, 8, 9, 10, 11, 12] 3 2 : Matrix Int) ∧
    colOf (Matrix.new [7, 8, 9, 10, 11, 12] 3 2 : Matrix Int) 1 = some [8, 10, 12] :=
  ⟨rfl,
    (C4_column (Matrix.new [7, 8, 9, 10, 11, 12] 3 2) 1 rfl (by decide)
      (by decide)).trans (by decide)⟩

/-- Counterexample to C4 as stated: for the well-formed matrix B of shape
(0, 2) and column index 1 below cols, the code panics on the slice
b.data[1..] (modelled as none) instead of materializing the empty column. -/
theorem C4_column_counterexample :
    colOf (Matrix.new ([] : List Int) 0 2) 1 = none ∧
    colOf (Matrix.new ([] : List Int) 0 2) 1 ≠ some [] := by
  decide

/-- Claim C5: whenever the dimension check passes, exactly NUM_THREADS = 4
workers are spawned independently of the task count, every recorded send goes
to worker idx % 4, and for well-formed inputs the full task list, one send per
destination index in order, is dispatched with no further threads created. -/
theorem C5_worker_pool {T : Type} [Inhabited T] [Add T] [Mul T] (a b : Matrix T)
    (hab : a.col = b.row) :
    NUM_THREADS = 4 ∧
    (multiplyTrace a b).workersSpawned = 4 ∧
    (∀ p ∈ (multiplyTrace a b).sends, p.1 = p.2 % 4) ∧
    (WellFormed a → WellFormed b → 1 ≤ b.row ∨ b.col ≤ 1 →
      (multiplyTrace a b).sends
        = (List.range (a.row * b.col)).map (fun k => (k % 4, k))) := by
  refine ⟨rfl, ?_, ?_, ?_⟩
  · rw [multiplyTrace, if_neg (by simp [hab])]
    rfl
  · intro p hp
    rw [multiplyTrace, if_neg (by simp [hab])] at hp
    simp only [List.mem_map] at hp
    obtain ⟨ij, _, hij⟩ := hp
    rw [← hij]
    rfl
  · intro ha hb hdeg
    rw [multiplyTrace_wf a b ha hb hab hdeg]
    rfl

/-- Witness for C5 at a task count below 4 (a 1 by 1 product grid) and at a
task count above 4 (a 2 by 3 grid, 6 tasks). -/
theorem C5_worker_pool_witness :
    (multiplyTrace (Matrix.new [5] 1 1 : Matrix Int) (Matrix.new [7] 1 1)).workersSpawned
      = 4 ∧
    (multiplyTrace (Matrix.new [5] 1 1 : Matrix Int) (Matrix.new [7] 1 1)).sends
      = [(0, 0)] ∧
    (multiplyTrace (Matrix.new [1, 2, 3, 4, 5, 6] 2 3 : Matrix Int)
        (Matrix.new [1, 2, 3, 4, 5, 6, 7, 8, 9] 3 3)).workersSpawned = 4 ∧
    (multiplyTrace (Matrix.new [1, 2, 3, 4, 5, 6] 2 3 : Matrix Int)
        (Matrix.new [1, 2, 3, 4, 5, 6, 7, 8, 9] 3 3)).sends
      = [(0, 0), (1, 1), (2, 2), (3, 3), (0, 4), (1, 5)] :=
  ⟨(C5_worker_pool (Matrix.new [5] 1 1) (Matrix.new [7] 1 1) rfl).2.1,
   ((C5_worker_pool (Matrix.new [5] 1 1) (Matrix.new [7] 1 1) rfl).2.2.2 rfl rfl
     (Or.inl (by decide))).trans (by decide),
   (C5_worker_pool (Matrix.new [1, 2, 3, 4, 5, 6] 2 3)
     (Matrix.new [1, 2, 3, 4, 5, 6, 7, 8, 9] 3 3) rfl).2.1,
   ((C5_worker_pool (Matrix.new [1, 2, 3, 4, 5, 6] 2 3)
     (Matrix.new [1, 2, 3, 4, 5, 6, 7, 8, 9] 3 3) rfl).2.2.2 rfl rfl
     (Or.inl (by decide))).trans (by decide)⟩

/-- Claim C6: multiply is deterministic: the result of a call is the same
under every admissible schedule of channel events, so identical inputs give
identical outputs (same matrix on success, same error classification on
failure) regardless of thread scheduling. -/
theorem C6_deterministic {T : Type} [Inhabited T] [Add T] [Mul T]
    (a b : Matrix T) (s₁ s₂ : Nat → Bool)
    (h₁ : validSchedule a b s₁) (h₂ : validSchedule a b s₂) :
    multiplyWith s₁ a b = multiplyWith s₂ a b :=
  multiplyWith_valid_eq a b s₁ s₂ h₁ h₂

/-- Witness for C6: two different admissible schedules on the concrete 2 by 3
times 3 by 2 product give the same result. -/
theorem C6_deterministic_witness :
    multiplyWith (fun _ => true) (Matrix.new [1, 2, 3, 4, 5, 6] 2 3 : Matrix Int)
        (Matrix.new [7, 8, 9, 10, 11, 12] 3 2)
      = multiplyWith (fun k => decide (k < 100))
        (Matrix.new [1, 2, 3, 4, 5, 6] 2 3) (Matrix.new [7, 8, 9, 10, 11, 12] 3 2) := by
  have hv1 : validSchedule (Matrix.new [1, 2, 3, 4, 5, 6] 2 3 : Matrix Int)
      (Matrix.new [7, 8, 9, 10, 11, 12] 3 2) (fun _ => true) :=
    fun idx _ h => Bool.noConfusion h
  have hv2 : validSchedule (Matrix.new [1, 2, 3, 4, 5, 6] 2 3 : Matrix Int)
      (Matrix.new [7, 8, 9, 10, 11, 12] 3 2) (fun k => decide (k < 100)) := by
    intro idx hlt h
    have hlt4 : idx < 4 := hlt
    simp only [decide_eq_false_iff_not] at h
    omega
  exact C6_deterministic _ _ _ _ hv1 hv2

/-- Claim C7: the operator form a * b returns the matrix of multiply when that
call returns Ok, and aborts the process (modelled as none) whenever multiply
returns an error, in particular when a.col differs from b.row. -/
theorem C7_operator {T : Type} [Inhabited T] [Add T] [Mul T] (a b : Matrix T) :
    (∀ m, multiply a b = some (Except.ok m) → mulOp a b = some m) ∧
    (∀ e, multiply a b = some (Except.error e) → mulOp a b = none) ∧
    (a.col ≠ b.row → mulOp a b = none) := by
  refine ⟨?_, ?_, ?_⟩
  · intro m h; simp [mulOp, h]
  · intro e h; simp [mulOp, h]
  · intro hab
    have hdim : multiply a b = some (Except.error MultiplyError.DimensionMismatch) :=
      (multiplyWith_dim_iff (fun _ => true) a b).mpr hab
    simp [mulOp, hdim]

/-- Witness for C7: the operator form returns the concrete product on the
matching pair, and aborts (none) on the mismatched pair A (2 by 3), B (2 by 2). -/
theorem C7_operator_witness :
    mulOp (Matrix.new [1, 2, 3, 4, 5, 6] 2 3 : Matrix Int)
        (Matrix.new [7, 8, 9, 10, 11, 12] 3 2)
      = some (Matrix.new [58, 64, 139, 154] 2 2) ∧
    mulOp (Matrix.new [1, 2, 3, 4, 5, 6] 2 3 : Matrix Int)
        (Matrix.new [1, 2, 3, 4] 2 2) = none :=
  ⟨(C7_operator (Matrix.new [1, 2, 3, 4, 5, 6] 2 3)
      (Matrix.new [7, 8, 9, 10, 11, 12] 3 2)).1 _ (by decide),
   (C7_operator (Matrix.new [1, 2, 3, 4, 5, 6] 2 3)
      (Matrix.new [1, 2, 3, 4] 2 2)).2.2 (by decide)⟩

/-- Admissible schedule in which the send of task 4 fails: its worker, number
0, has already exited after the dot product of task 0 failed on the malformed
buffer of b. -/
theorem validSched_sendFail :
    validSchedule (Matrix.new [1] 1 1 : Matrix Int)
      (Matrix.new [1, 2, 3, 4, 5, 6] 1 5) (fun k => !(k == 4)) := by
  intro idx hlt hfalse
  have h4 : idx = 4 := by simpa using hfalse
  subst h4
  decide

/-- Claim C8, amended: when the send of a dispatched task fails, the failure
is only logged at dispatch time and dispatch continues, but the lost task
leaves a reply channel that yields no value, so the multiply call does not
return Ok at all: it either panics or fails with ChannelRecvFailure, instead
of returning a matrix whose lost cell holds the default value. -/
theorem C8_send_failure {T : Type} [Inhabited T] [Add T] [Mul T]
    (a b : Matrix T) (s : Nat → Bool) (idx : Nat) (_hv : validSchedule a b s)
    (hab : a.col = b.row) (hidx : idx < a.row * b.col) (hfail : s idx = false) :
    (∀ m, multiplyWith s a b ≠ some (Except.ok m)) ∧
    (multiplyWith s a b = none ∨
      multiplyWith s a b = some (Except.error MultiplyError.ChannelRecvFailure)) := by
  have hmain := multiplyWith_dropped_fails s a b hab idx hidx (Or.inl hfail)
  refine ⟨?_, hmain⟩
  intro m hm
  rcases hmain with h | h
  · rw [h] at hm; exact Option.noConfusion hm
  · rw [h] at hm; exact Except.noConfusion (Option.some.inj hm)

/-- Witness for C8 on the concrete run where the send of task 4 fails. -/
theorem C8_send_failure_witness :
    multiplyWith (fun k => !(k == 4)) (Matrix.new [1] 1 1 : Matrix Int)
        (Matrix.new [1, 2, 3, 4, 5, 6] 1 5) = none ∨
    multiplyWith (fun k => !(k == 4)) (Matrix.new [1] 1 1 : Matrix Int)
        (Matrix.new [1, 2, 3, 4, 5, 6] 1 5)
      = some (Except.error MultiplyError.ChannelRecvFailure) :=
  (C8_send_failure (Matrix.new [1] 1 1) (Matrix.new [1, 2, 3, 4, 5, 6] 1 5)
    (fun k => !(k == 4)) 4 validSched_sendFail rfl (by decide) rfl).2

/-- Counterexample to C8 as stated: in an admissible schedule where the send
of task 4 fails, the multiply call fails with ChannelRecvFailure; it does not
return a matrix with the lost cell left at its default value. -/
theorem C8_send_failure_counterexample :
    validSchedule (Matrix.new [1] 1 1 : Matrix Int)
      (Matrix.new [1, 2, 3, 4, 5, 6] 1 5) (fun k => !(k == 4)) ∧
    (fun k => !(k == 4)) 4 = false ∧
    multiplyWith (fun k => !(k == 4)) (Matrix.new [1] 1 1 : Matrix Int)
        (Matrix.new [1, 2, 3, 4, 5, 6] 1 5)
      = some (Except.error MultiplyError.ChannelRecvFailure) :=
  ⟨validSched_sendFail, rfl, by decide⟩

/-- Claim C9, amended: when the dot product of a task fails, the worker exits
its receive loop (rather than continuing), dropping the reply channel of the
failing task and of every task still queued behind it; a dropped reply makes
the Result Assembler fail the entire multiply call with ChannelRecvFailure. -/
theorem C9_worker_failure {T : Type} [Inhabited T] [Add T] [Mul T] :
    (∀ (r c : Vector T) (rest : List (Vector T × Vector T)) (e : MultiplyError),
      dot_product r c = Except.error e →
      workerRun ((r, c) :: rest) = none :: rest.map (fun _ => none)) ∧
    (∀ (a b : Matrix T) (rs : List (Nat × Option T)),
      a.col = b.row →
      dispatchAll (fun _ => true) a b (cellPairs a b) = some rs →
      (∃ p ∈ rs, p.2 = none) →
      multiply a b = some (Except.error MultiplyError.ChannelRecvFailure)) := by
  refine ⟨workerRun_dim_failure, ?_⟩
  intro a b rs hab hd hex
  rw [multiply, multiplyWith, if_neg (by simp [hab]), hd, Option.map_some',
    collectResults_none_mem rs _ hex]
  rfl

/-- Witness for C9: a worker that receives a malformed task followed by a good
one answers neither, and the corresponding multiply call fails with
ChannelRecvFailure. -/
theorem C9_worker_failure_witness :
    workerRun [(Vector.new ([1] : List Int), Vector.new [1, 2]),
        (Vector.new [1], Vector.new [1])] = [none, none] ∧
    multiply (Matrix.new [1] 1 1 : Matrix Int) (Matrix.new [1, 2] 1 1)
      = some (Except.error MultiplyError.ChannelRecvFailure) :=
  ⟨C9_worker_failure.1 (Vector.new [1]) (Vector.new [1, 2])
      [(Vector.new [1], Vector.new [1])] MultiplyError.DimensionMismatch (by decide),
   C9_worker_failure.2 (Matrix.new [1] 1 1) (Matrix.new [1, 2] 1 1) [(0, none)]
      rfl (by decide) (by decide)⟩

/-- Counterexample to C9 as stated: after a dimension failure the worker does
not continue its receive loop: the well-formed task queued behind the failing
one is never answered, where the claim predicts the reply some 1. -/
theorem C9_worker_failure_counterexample :
    workerRun [(Vector.new ([1] : List Int), Vector.new [1, 2]),
        (Vector.new [1], Vector.new [1])] = [none, none] ∧
    workerRun [(Vector.new ([1] : List Int), Vector.new [1, 2]),
        (Vector.new [1], Vector.new [1])] ≠ [none, some 1] := by
  decide

/-- Claim C10, amended: Matrix.new validates nothing and stores the buffer and
dimensions exactly as given; under the precondition that both matrices are
well-formed (buffer length equals rows times cols), every index the Display
rendering computes is in bounds, and every index multiply computes is in
bounds provided additionally that b has at least one row or at most one
column: without that b.data[j..] panics on a well-formed empty b, so the
out-of-range branch is reachable. -/
theorem C10_bounds {T : Type} [Inhabited T] [Add T] [Mul T] :
    (∀ (d : List T) (r c : Nat), (Matrix.new d r c).data = d ∧
      (Matrix.new d r c).row = r ∧ (Matrix.new d r c).col = c) ∧
    (∀ (m : Matrix T) (toStr : T → String), WellFormed m →
      ∃ str, Matrix.fmt m toStr = some str) ∧
    (∀ a b : Matrix T, WellFormed a → WellFormed b → a.col = b.row →
      1 ≤ b.row ∨ b.col ≤ 1 → multiply a b ≠ none) := by
  refine ⟨fun d r c => ⟨rfl, rfl, rfl⟩, ?_, ?_⟩
  · intro m toStr hwf
    exact ⟨renderSpec m toStr, fmt_eq_renderSpec m toStr hwf⟩
  · intro a b ha hb hab hdeg h
    rw [multiply_eq_seq a b ha hb hab hdeg] at h
    exact Option.noConfusion h

/-- Witness for C10: the constructor stores a concrete malformed triple
unchanged, the concrete 2 by 2 render succeeds, and the concrete 2 by 3 times
3 by 2 multiply does not panic. -/
theorem C10_bounds_witness :
    (Matrix.new [9] 2 7 : Matrix Int).data = [9] ∧
    (Matrix.new [9] 2 7 : Matrix Int).row = 2 ∧
    (Matrix.new [9] 2 7 : Matrix Int).col = 7 ∧
    (Matrix.fmt (Matrix.new [58, 64, 139, 154] 2 2 : Matrix Int) toString).isSome
      = true ∧
    (multiply (Matrix.new [1, 2, 3, 4, 5, 6] 2 3 : Matrix Int)
      (Matrix.new [7, 8, 9, 10, 11, 12] 3 2)).isSome = true := by
  have h1 := (C10_bounds (T := Int)).1 [9] 2 7
  have h2 := (C10_bounds (T := Int)).2.1 (Matrix.new [58, 64, 139, 154] 2 2)
    toString rfl
  have h3 := (C10_bounds (T := Int)).2.2 (Matrix.new [1, 2, 3, 4, 5, 6] 2 3)
    (Matrix.new [7, 8, 9, 10, 11, 12] 3 2) rfl rfl rfl (Or.inl (by decide))
  obtain ⟨str, hstr⟩ := h2
  refine ⟨h1.1, h1.2.1, h1.2.2, by rw [hstr]; rfl, ?_⟩
  cases hm : multiply (Matrix.new [1, 2, 3, 4, 5, 6] 2 3 : Matrix Int)
    (Matrix.new [7, 8, 9, 10, 11, 12] 3 2) with
  | none => exact absurd hm h3
  | some v => rfl

/-- Counterexample to C10 as stated: the well-formed pair A (2, 0), B (0, 3)
reaches the out-of-range slice branch inside multiply, which panics (none),
so the in-bounds property does not follow from well-formedness alone. -/
theorem C10_bounds_counterexample :
    multiply (Matrix.new ([] : List Int) 2 0) (Matrix.new [] 0 3) = none := by
  decide

end Concurrency
